import Mathlib

/-!
Shallow embedding of the `deno-unknownutil` runtime value-validation library.

The embedding covers:
* `src/is.ts` — the combinator library (`isArrayOf`, `isTupleOf`,
  `isUniformTupleOf`, `isRecordOf`, `isObjectOf` strict/loose, `isOneOf`,
  `isAllOf`, `isLiteralOf`, `isLiteralOneOf`, `isOptionalOf`) as boolean
  predicates over an inductive model of JavaScript values;
* the `as` modifier module (`asOptional` / `asRequired` from
  `src/unnamed/part_000`) over an object model of predicates that tracks
  reference identity, the `optional` facet flag, and factory metadata;
* a fallible (Option-valued) copy of every combinator, used to state that
  value checking never raises when the sub-predicates never raise.
-/

namespace Unknownutil

/-- Model of a JavaScript runtime value.  Numbers are modelled as integers
plus a separate `nan` constructor (the one floating-point value whose
equality behaviour is observable to this library: `NaN === NaN` is `false`
while `Array.prototype.includes` finds it via SameValueZero).  Objects are
association lists of own enumerable string keys; JavaScript objects have
unique keys, which theorems assume via explicit `Nodup` hypotheses. -/
inductive Value : Type where
  | vUndefined : Value
  | vnull : Value
  | num : Int → Value
  | nan : Value
  | str : String → Value
  | bool : Bool → Value
  | arr : List Value → Value
  | obj : List (String × Value) → Value

/-- A runtime predicate: `src/is.ts` `Predicate<T>` erased to its runtime
behaviour, a function from an arbitrary value to a boolean. -/
abbrev Pred := Value → Bool

/-- Model of `isUndefined` from `src/is.ts`: `typeof x === "undefined"`. -/
def isUndefined : Pred
  | .vUndefined => true
  | _ => false

/-- Model of `isNullish` from `src/is.ts`: `x == null`. -/
def isNullish : Pred
  | .vUndefined => true
  | .vnull => true
  | _ => false

/-- Model of `isString` from `src/is.ts`: `typeof x === "string"`. -/
def isString : Pred
  | .str _ => true
  | _ => false

/-- Model of `isNumber` from `src/is.ts`: `typeof x === "number"` (`NaN` is a number). -/
def isNumber : Pred
  | .num _ => true
  | .nan => true
  | _ => false

/-- Model of `isBoolean` from `src/is.ts`: `typeof x === "boolean"`. -/
def isBoolean : Pred
  | .bool _ => true
  | _ => false

/-- Model of `isArray` from `src/is.ts`: `Array.isArray(x)`. -/
def isArray : Pred
  | .arr _ => true
  | _ => false

/-- Model of `isAny` from `src/is.ts`: always `true`. -/
def isAny : Pred := fun _ => true

/-- Model of `isRecord` from `src/is.ts`: not nullish, not an array, and
`typeof x === "object"`. -/
def isRecord : Pred := fun x =>
  if isNullish x || isArray x then false
  else match x with
    | .obj _ => true
    | _ => false

/-- Model of `isArrayOf(pred)` from `src/is.ts`: `isArray(x) && x.every(pred)`. -/
def isArrayOf (pred : Pred) : Pred := fun x =>
  match x with
  | .arr xs => xs.all pred
  | _ => false

/-- Model of `isTupleOf(predTup)` (no rest predicate) from `src/is.ts`: rejects
non-arrays and length mismatches, then `predTup.every((pred, i) => pred(x[i]))`. -/
def isTupleOf (predTup : List Pred) : Pred := fun x =>
  match x with
  | .arr xs =>
    if xs.length = predTup.length then
      (predTup.zip xs).all fun pv => pv.1 pv.2
    else false
  | _ => false

/-- Model of `isTupleOf(predTup, predElse)` from `src/is.ts`: rejects non-arrays and
arrays shorter than `predTup`, then checks the head slice positionally and
passes the tail slice, as an array, to `predElse`. -/
def isTupleOfRest (predTup : List Pred) (predElse : Pred) : Pred := fun x =>
  match x with
  | .arr xs =>
    if xs.length < predTup.length then false
    else
      ((predTup.zip (xs.take predTup.length)).all fun pv => pv.1 pv.2) &&
        predElse (.arr (xs.drop predTup.length))
  | _ => false

/-- Model of `isUniformTupleOf(n, pred)` from `src/is.ts`: `isTupleOf(Array(n).fill(pred))`. -/
def isUniformTupleOf (n : Nat) (pred : Pred) : Pred :=
  isTupleOf (List.replicate n pred)

/-- Model of `isRecordOf(pred)` from `src/is.ts`: `isRecord(x)` and every enumerable
property value satisfies `pred`. -/
def isRecordOf (pred : Pred) : Pred := fun x =>
  match x with
  | .obj fs => fs.all fun kv => pred kv.2
  | _ => false

/-- Own enumerable keys of an object descriptor or object value
(`Object.keys`). -/
def keysOf {α : Type} (fs : List (String × α)) : List String := fs.map Prod.fst

/-- Property access `x[k]` on an object: the first binding of `k`, or
`undefined` when the key is absent. -/
def getProp (fs : List (String × Value)) (k : String) : Value :=
  match fs.find? (fun kv => kv.1 == k) with
  | some kv => kv.2
  | none => .vUndefined

/-- Model of `isObjectOfLoose(predObj)` from `src/is.ts`: `isRecord(x)` and, for every
key `k` of the descriptor, `predObj[k](x[k])` (a missing key reads as
`undefined`). -/
def isObjectOfLoose (predObj : List (String × Pred)) : Pred := fun x =>
  match x with
  | .obj fs => predObj.all fun kp => kp.2 (getProp fs kp.1)
  | _ => false

/-- Model of `isObjectOfStrict(predObj)` from `src/is.ts`: the loose check, and then
`Object.keys(x).length <= keys.size && Object.keys(x).every((k) => keys.has(k))`
where `keys = new Set(Object.keys(predObj))`. -/
def isObjectOfStrict (predObj : List (String × Pred)) : Pred := fun x =>
  if isObjectOfLoose predObj x then
    match x with
    | .obj fs =>
      decide (fs.length ≤ (keysOf predObj).dedup.length) &&
        fs.all fun kv => decide (kv.1 ∈ keysOf predObj)
    | _ => false
  else false

/-- Model of `isObjectOf(predObj, {strict})` from `src/is.ts`: dispatches to the
strict or loose checker (the `name` property decoration is diagnostic only). -/
def isObjectOf (predObj : List (String × Pred)) (strict : Bool) : Pred :=
  if strict then isObjectOfStrict predObj else isObjectOfLoose predObj

/-- JavaScript strict equality `===` on modelled values.  `NaN === NaN` is
`false`.  On arrays and objects `===` is reference equality, which two
structurally described values cannot exhibit; the library only applies this
to `Primitive` literals, so the `false` fallback is never observed there. -/
def strictEq : Value → Value → Bool
  | .vUndefined, .vUndefined => true
  | .vnull, .vnull => true
  | .num m, .num n => m == n
  | .str s, .str t => s == t
  | .bool a, .bool b => a == b
  | _, _ => false

/-- SameValueZero, the comparison used by `Array.prototype.includes`: like
`===` except that `NaN` matches `NaN`. -/
def sameValueZero : Value → Value → Bool
  | .nan, .nan => true
  | a, b => strictEq a b

/-- Model of `isLiteralOf(literal)` from `src/is.ts`: `x === literal`. -/
def isLiteralOf (literal : Value) : Pred := fun x => strictEq x literal

/-- Model of `isLiteralOneOf(literals)` from `src/is.ts`:
`literals.includes(x)` (SameValueZero comparison). -/
def isLiteralOneOf (literals : List Value) : Pred := fun x =>
  literals.any fun l => sameValueZero l x

/-- Model of `isOneOf(preds)` from `src/is.ts`: `preds.some((pred) => pred(x))`. -/
def isOneOf (preds : List Pred) : Pred := fun x => preds.any fun pred => pred x

/-- Model of `isAllOf(preds)` from `src/is.ts`: `preds.every((pred) => pred(x))`. -/
def isAllOf (preds : List Pred) : Pred := fun x => preds.all fun pred => pred x

/-- Runtime behaviour of `isOptionalOf(pred)` from `src/is.ts`:
`isUndefined(x) || pred(x)`. -/
def isOptionalOfB (pred : Pred) : Pred := fun x => isUndefined x || pred x

/-- Object model of a constructed predicate, for the parts of the library
where reference identity, the `optional` facet flag and factory metadata are
observable.  `pid` models the JavaScript function object's identity (a fresh
one per allocation); `run` its runtime behaviour; `opt` the `optional: true`
facet property; `meta` the factory metadata `{ name, args }` recorded by the
metadata store (`none` models a predicate with no recorded metadata).
Modelled from the spec: the Metadata Store (`src/metadata.ts` is not part of
the sources) is an identity-keyed lookup-or-absent side table, rendered here
as the `meta` field carried by the object itself. -/
inductive PredObj : Type where
  | mk : Nat → (Value → Bool) → Bool → Option (String × List PredObj) → PredObj

/-- Reference identity of a predicate object. -/
def PredObj.pid : PredObj → Nat
  | .mk i _ _ _ => i

/-- Runtime behaviour of a predicate object. -/
def PredObj.run : PredObj → Value → Bool
  | .mk _ r _ _ => r

/-- The `optional: true` facet flag of a predicate object. -/
def PredObj.opt : PredObj → Bool
  | .mk _ _ o _ => o

/-- The factory metadata recorded for a predicate object, or `none`. -/
def PredObj.meta : PredObj → Option (String × List PredObj)
  | .mk _ _ _ m => m

@[simp] theorem PredObj.pid_mk (i : Nat) (r : Value → Bool) (o : Bool)
    (m : Option (String × List PredObj)) : (PredObj.mk i r o m).pid = i := rfl

@[simp] theorem PredObj.run_mk (i : Nat) (r : Value → Bool) (o : Bool)
    (m : Option (String × List PredObj)) : (PredObj.mk i r o m).run = r := rfl

@[simp] theorem PredObj.opt_mk (i : Nat) (r : Value → Bool) (o : Bool)
    (m : Option (String × List PredObj)) : (PredObj.mk i r o m).opt = o := rfl

@[simp] theorem PredObj.meta_mk (i : Nat) (r : Value → Bool) (o : Bool)
    (m : Option (String × List PredObj)) : (PredObj.mk i r o m).meta = m := rfl

/-- Modelled from the spec: the dedicated facet check `isOptional(pred)`
(imported by the `as` module from a version of `is.ts` not among the
sources) — "detected via a dedicated facet check, not metadata name
matching", i.e. it reads the `optional` facet flag. -/
def isOptionalCheck (pred : PredObj) : Bool := pred.opt

/-- Model of `asOptional(pred)` from `src/unnamed/part_000`: if `pred` already
carries the optional facet, return `pred` itself; otherwise allocate a new
predicate `x => x === undefined || pred(x)` (its fresh identity passed
explicitly as `fresh`), set factory metadata `{name: "asOptional", args:
[pred]}`, and attach the `optional: true` facet property. -/
def asOptionalObj (fresh : Nat) (pred : PredObj) : PredObj :=
  if isOptionalCheck pred then pred
  else .mk fresh (fun x => isUndefined x || pred.run x) true
    (some ("asOptional", [pred]))

/-- Model of `asRequired(pred)` from `src/unnamed/part_000`: if `pred` does not carry
the optional facet, return `pred` unchanged; otherwise look up its factory
metadata and return `args[0]`.  A facet-carrying predicate without factory
metadata recording a first argument is, per the spec, "undefined by
construction"; the model returns `pred` on that unreachable-by-factory path. -/
def asRequiredObj (pred : PredObj) : PredObj :=
  if !isOptionalCheck pred then pred
  else match pred.meta with
    | some (_, a :: _) => a
    | _ => pred

/-- Model of `isOptionalOf(pred)` from `src/is.ts` (lines 672–686) as an allocating
operation: unconditionally (no facet check) allocate a new function
`x => isUndefined(x) || pred(x)` with a fresh identity and the
`optional: true` facet property; no factory metadata is recorded by this
combinator. -/
def isOptionalOfObj (fresh : Nat) (pred : PredObj) : PredObj :=
  .mk fresh (fun x => isUndefined x || pred.run x) true none

/-- A concrete leaf predicate object: `is.String`, carrying no facet and no
factory metadata. -/
def isStringObj : PredObj := .mk 0 isString false none

/-- A fallible predicate: a sub-predicate application that may raise is
modelled as returning `none`.  The combinators below repeat the `src/is.ts`
definitions in this fallible semantics, to state that value checking never
raises when the sub-predicates never raise. -/
abbrev FPred := Value → Option Bool

/-- Short-circuiting `Array.prototype.every` in the fallible semantics:
stops at the first `false`, propagates a raise from the elements it reaches. -/
def allOpt {α : Type} : List α → (α → Option Bool) → Option Bool
  | [], _ => some true
  | a :: as, f => (f a).bind fun b => if b then allOpt as f else some false

/-- Short-circuiting `Array.prototype.some` in the fallible semantics. -/
def anyOpt {α : Type} : List α → (α → Option Bool) → Option Bool
  | [], _ => some false
  | a :: as, f => (f a).bind fun b => if b then some true else anyOpt as f

/-- Fallible `isArrayOf(pred)`. -/
def fIsArrayOf (pred : FPred) : FPred := fun x =>
  match x with
  | .arr xs => allOpt xs pred
  | _ => some false

/-- Fallible `isTupleOf(predTup)` (no rest predicate). -/
def fIsTupleOf (predTup : List FPred) : FPred := fun x =>
  match x with
  | .arr xs =>
    if xs.length = predTup.length then
      allOpt (predTup.zip xs) fun pv => pv.1 pv.2
    else some false
  | _ => some false

/-- Fallible `isTupleOf(predTup, predElse)`. -/
def fIsTupleOfRest (predTup : List FPred) (predElse : FPred) : FPred := fun x =>
  match x with
  | .arr xs =>
    if xs.length < predTup.length then some false
    else
      (allOpt (predTup.zip (xs.take predTup.length)) fun pv => pv.1 pv.2).bind
        fun b =>
          if b then predElse (.arr (xs.drop predTup.length)) else some false
  | _ => some false

/-- Fallible `isUniformTupleOf(n, pred)`. -/
def fIsUniformTupleOf (n : Nat) (pred : FPred) : FPred :=
  fIsTupleOf (List.replicate n pred)

/-- Fallible `isRecordOf(pred)`. -/
def fIsRecordOf (pred : FPred) : FPred := fun x =>
  match x with
  | .obj fs => allOpt fs fun kv => pred kv.2
  | _ => some false

/-- Fallible `isObjectOfLoose(predObj)`. -/
def fIsObjectOfLoose (predObj : List (String × FPred)) : FPred := fun x =>
  match x with
  | .obj fs => allOpt predObj fun kp => kp.2 (getProp fs kp.1)
  | _ => some false

/-- Fallible `isObjectOfStrict(predObj)`: the loose check and then the pure
key-set comparison of `src/is.ts`, which applies no sub-predicate. -/
def fIsObjectOfStrict (predObj : List (String × FPred)) : FPred := fun x =>
  (fIsObjectOfLoose predObj x).bind fun b =>
    if b then
      match x with
      | .obj fs =>
        some ((decide (fs.length ≤ (keysOf predObj).dedup.length)) &&
          fs.all fun kv => decide (kv.1 ∈ keysOf predObj))
      | _ => some false
    else some false

/-- Fallible `isOneOf(preds)`. -/
def fIsOneOf (preds : List FPred) : FPred := fun x =>
  anyOpt preds fun pred => pred x

/-- Fallible `isAllOf(preds)`. -/
def fIsAllOf (preds : List FPred) : FPred := fun x =>
  allOpt preds fun pred => pred x

/-- Fallible `isLiteralOf(literal)`: a pure strict-equality comparison. -/
def fIsLiteralOf (literal : Value) : FPred := fun x => some (strictEq x literal)

/-- Fallible `isLiteralOneOf(literals)`: a pure `includes` over primitives. -/
def fIsLiteralOneOf (literals : List Value) : FPred := fun x =>
  some (literals.any fun l => sameValueZero l x)

/-- Fallible `isOptionalOf(pred)`: `isUndefined(x) || pred(x)`,
short-circuiting before `pred` on `undefined`. -/
def fIsOptionalOf (pred : FPred) : FPred := fun x =>
  if isUndefined x then some true else pred x

/-- A fallible predicate never raises: it returns a boolean on every input. -/
def TotalF (pred : FPred) : Prop := ∀ x, (pred x).isSome = true

/-! Helper lemmas shared by the claim theorems. -/

theorem strictEq_symm (a b : Value) : strictEq a b = strictEq b a := by
  cases a <;> cases b <;> first
    | rfl
    | (rw [Bool.eq_iff_iff]; simp only [strictEq, beq_iff_eq]; exact eq_comm)

theorem objectOfStrict_eq (predObj : List (String × Pred))
    (fs : List (String × Value)) :
    isObjectOfStrict predObj (.obj fs) =
      (isObjectOfLoose predObj (.obj fs) &&
        (decide (fs.length ≤ (keysOf predObj).dedup.length) &&
          fs.all fun kv => decide (kv.1 ∈ keysOf predObj))) := by
  by_cases hl : isObjectOfLoose predObj (.obj fs) = true <;>
    simp [isObjectOfStrict, hl]

theorem objectOfStrict_char (predObj : List (String × Pred))
    (fs : List (String × Value)) (hpo : (keysOf predObj).Nodup) :
    isObjectOfStrict predObj (.obj fs) = true ↔
      (∀ kp ∈ predObj, kp.2 (getProp fs kp.1) = true) ∧
      (∀ kv ∈ fs, kv.1 ∈ keysOf predObj) ∧
      fs.length ≤ predObj.length := by
  rw [objectOfStrict_eq,
    show (keysOf predObj).dedup = keysOf predObj from List.dedup_eq_self.mpr hpo]
  simp only [Bool.and_eq_true, List.all_eq_true, isObjectOfLoose,
    decide_eq_true_eq, keysOf, List.length_map]
  tauto

theorem allOpt_isSome {α : Type} (l : List α) (f : α → Option Bool)
    (h : ∀ a ∈ l, (f a).isSome = true) : (allOpt l f).isSome = true := by
  induction l with
  | nil => rfl
  | cons a as ih =>
    obtain ⟨b, hb⟩ :=
      Option.isSome_iff_exists.mp (h a (List.mem_cons_self a as))
    simp only [allOpt, hb, Option.some_bind]
    cases b with
    | false => rfl
    | true => exact ih fun a2 h2 => h a2 (List.mem_cons_of_mem _ h2)

theorem anyOpt_isSome {α : Type} (l : List α) (f : α → Option Bool)
    (h : ∀ a ∈ l, (f a).isSome = true) : (anyOpt l f).isSome = true := by
  induction l with
  | nil => rfl
  | cons a as ih =>
    obtain ⟨b, hb⟩ :=
      Option.isSome_iff_exists.mp (h a (List.mem_cons_self a as))
    simp only [anyOpt, hb, Option.some_bind]
    cases b with
    | true => rfl
    | false => exact ih fun a2 h2 => h a2 (List.mem_cons_of_mem _ h2)

/-! The claim theorems. -/

/-- C1: applying the optional modifier twice yields a predicate identical to
applying it once, and on a predicate already carrying the optional facet the
modifier returns its argument itself — the same object, with no new
predicate allocated and no new metadata attached:
`asOptional(asOptional(p)) === asOptional(p)`. -/
theorem asOptional_idempotent :
    (∀ (fresh : Nat) (pred : PredObj), pred.opt = true →
      asOptionalObj fresh pred = pred) ∧
    (∀ (f1 f2 : Nat) (pred : PredObj),
      asOptionalObj f2 (asOptionalObj f1 pred) = asOptionalObj f1 pred) := by
  constructor
  · intro fresh pred h
    simp [asOptionalObj, isOptionalCheck, h]
  · intro f1 f2 pred
    by_cases h : pred.opt = true <;>
      simp [asOptionalObj, isOptionalCheck, h]

theorem asOptional_idempotent_witness :
    asOptionalObj 2 (asOptionalObj 1 isStringObj) = asOptionalObj 1 isStringObj :=
  asOptional_idempotent.1 2 (asOptionalObj 1 isStringObj) rfl

/-- C2 counterexample: the round-trip law fails for a predicate that already
carries the optional facet.  With `p = asOptional(isString)`,
`asRequired(asOptional(p))` unwraps `p` itself and yields `isString`, which
is not `p`: it rejects `undefined` while `p` accepts it. -/
theorem asRequired_asOptional_not_roundtrip :
    (asRequiredObj (asOptionalObj 2 (asOptionalObj 1 isStringObj))).run .vUndefined
        = false ∧
      (asOptionalObj 1 isStringObj).run .vUndefined = true := by
  constructor <;> rfl

/-- C2 (amended): for every predicate `p` that does not already carry the
optional facet, `asRequired(asOptional(p))` returns the original predicate
object `p` itself — `args[0]` of the optional-wrapping factory's recorded
metadata, the same reference, hence behaviorally equivalent to `p`. -/
theorem asRequired_asOptional_roundtrip (fresh : Nat) (pred : PredObj)
    (h : pred.opt = false) :
    asRequiredObj (asOptionalObj fresh pred) = pred := by
  simp [asRequiredObj, asOptionalObj, isOptionalCheck, h]

theorem asRequired_asOptional_roundtrip_witness :
    asRequiredObj (asOptionalObj 1 isStringObj) = isStringObj :=
  asRequired_asOptional_roundtrip 1 isStringObj rfl

/-- C5: on a predicate that does not carry the optional facet, `asRequired`
is a reference-stable no-op: `asRequired(p) === p`. -/
theorem asRequired_noop (pred : PredObj) (h : pred.opt = false) :
    asRequiredObj pred = pred := by
  simp [asRequiredObj, isOptionalCheck, h]

theorem asRequired_noop_witness : asRequiredObj isStringObj = isStringObj :=
  asRequired_noop isStringObj rfl

/-- C10: the combinator-namespace factory `isOptionalOf` of `src/is.ts` does
not collapse repeated wrapping — applied to a predicate that already carries
the optional facet it still allocates a new predicate distinct from its
argument — yet double wrapping is behaviorally identical to single wrapping
on every input. -/
theorem isOptionalOf_no_collapse :
    (∀ (fresh : Nat) (pred : PredObj), pred.opt = true → fresh ≠ pred.pid →
      isOptionalOfObj fresh pred ≠ pred) ∧
    (∀ (f1 f2 : Nat) (pred : PredObj) (x : Value),
      (isOptionalOfObj f2 (isOptionalOfObj f1 pred)).run x =
        (isOptionalOfObj f1 pred).run x) := by
  constructor
  · intro fresh pred _h hne heq
    apply hne
    have hp := congrArg PredObj.pid heq
    simpa [isOptionalOfObj] using hp
  · intro f1 f2 pred x
    cases hx : isUndefined x <;> simp [isOptionalOfObj, hx]

theorem isOptionalOf_no_collapse_witness :
    isOptionalOfObj 2 (isOptionalOfObj 1 isStringObj) ≠
      isOptionalOfObj 1 isStringObj :=
  isOptionalOf_no_collapse.1 2 (isOptionalOfObj 1 isStringObj) rfl (by decide)

/-- C3: `isObjectOf(descriptor, {strict: true})` accepts `x` iff `x` is a
non-array, non-nullish object, every descriptor key's predicate accepts the
corresponding property of `x` (a missing key reads as `undefined`), every
key of `x` occurs in the descriptor, and `x` has no more keys than the
descriptor.  In particular it rejects any value carrying a key absent from
the descriptor and accepts a value whose key set exactly matches the
descriptor's keys and whose values all pass. -/
theorem isObjectOfStrict_spec (predObj : List (String × Pred)) (x : Value)
    (hpo : (keysOf predObj).Nodup) :
    isObjectOf predObj true x = true ↔
      ∃ fs, x = .obj fs ∧
        (∀ kp ∈ predObj, kp.2 (getProp fs kp.1) = true) ∧
        (∀ kv ∈ fs, kv.1 ∈ keysOf predObj) ∧
        fs.length ≤ predObj.length := by
  cases x
  case obj fs =>
    have hchar := objectOfStrict_char predObj fs hpo
    constructor
    · intro h
      exact ⟨fs, rfl, hchar.mp (by simpa [isObjectOf] using h)⟩
    · rintro ⟨fs2, heq, h1, h2, h3⟩
      injection heq with hh
      subst hh
      simpa [isObjectOf] using hchar.mpr ⟨h1, h2, h3⟩
  all_goals simp [isObjectOf, isObjectOfStrict, isObjectOfLoose]

theorem isObjectOfStrict_spec_witness :
    isObjectOf [("a", isNumber)] true (.obj [("a", .num 1)]) = true :=
  (isObjectOfStrict_spec [("a", isNumber)] (.obj [("a", .num 1)])
      (by decide)).mpr
    ⟨[("a", .num 1)], rfl, by decide, by decide, by decide⟩

/-- C9: strict mode does not demand an exact key-set match: a value whose
own key set is a proper subset of the descriptor's keys is accepted as long
as every descriptor predicate accepts the corresponding (possibly
`undefined`) value; concretely,
`isObjectOf({a: isOptionalOf(isString)}, {strict: true})({})` is `true`. -/
theorem isObjectOfStrict_subset_spec :
    (∀ (predObj : List (String × Pred)) (fs : List (String × Value)),
      (keysOf predObj).Nodup → (keysOf fs).Nodup →
      (∀ kv ∈ fs, kv.1 ∈ keysOf predObj) →
      (∀ kp ∈ predObj, kp.2 (getProp fs kp.1) = true) →
      isObjectOf predObj true (.obj fs) = true) ∧
    isObjectOf [("a", isOptionalOfB isString)] true (.obj []) = true := by
  constructor
  · intro predObj fs hpo hfs hsub hpred
    have hss : keysOf fs ⊆ keysOf predObj := by
      intro k hk
      obtain ⟨kv, hmem, rfl⟩ := List.mem_map.mp hk
      exact hsub kv hmem
    have hlen : fs.length ≤ predObj.length := by
      have hle := (List.subperm_of_subset hfs hss).length_le
      simpa [keysOf, List.length_map] using hle
    have hres := (objectOfStrict_char predObj fs hpo).mpr ⟨hpred, hsub, hlen⟩
    simpa [isObjectOf] using hres
  · decide

theorem isObjectOfStrict_subset_spec_witness :
    isObjectOf [("a", isOptionalOfB isString), ("b", isNumber)] true
      (.obj [("b", .num 3)]) = true :=
  isObjectOfStrict_subset_spec.1 [("a", isOptionalOfB isString), ("b", isNumber)]
    [("b", .num 3)] (by decide) (by decide) (by decide) (by decide)

/-- C4: `isTupleOf(preds)` accepts exactly the arrays of length
`preds.length` whose elements satisfy the corresponding positional
predicates; a length mismatch is rejected regardless of the element
predicates, as is any non-array.  `isTupleOf(preds, restPred)` accepts
exactly the arrays of length at least `preds.length` whose head slice
passes positionally and whose tail slice, as one array, satisfies
`restPred`. -/
theorem isTupleOf_spec :
    (∀ (predTup : List Pred) (xs : List Value),
      isTupleOf predTup (.arr xs) = true ↔
        xs.length = predTup.length ∧
          ∀ pv ∈ predTup.zip xs, pv.1 pv.2 = true) ∧
    (∀ (predTup : List Pred) (x : Value), isArray x = false →
      isTupleOf predTup x = false) ∧
    (∀ (predTup : List Pred) (xs : List Value),
      xs.length ≠ predTup.length → isTupleOf predTup (.arr xs) = false) ∧
    (∀ (predTup : List Pred) (predElse : Pred) (xs : List Value),
      isTupleOfRest predTup predElse (.arr xs) = true ↔
        predTup.length ≤ xs.length ∧
          (∀ pv ∈ predTup.zip (xs.take predTup.length), pv.1 pv.2 = true) ∧
          predElse (.arr (xs.drop predTup.length)) = true) ∧
    (∀ (predTup : List Pred) (predElse : Pred) (x : Value),
      isArray x = false → isTupleOfRest predTup predElse x = false) := by
  refine ⟨?_, ?_, ?_, ?_, ?_⟩
  · intro predTup xs
    by_cases h : xs.length = predTup.length <;>
      simp [isTupleOf, h, List.all_eq_true]
  · intro predTup x hx
    cases x <;> simp_all [isTupleOf, isArray]
  · intro predTup xs h
    simp [isTupleOf, h]
  · intro predTup predElse xs
    by_cases h : xs.length < predTup.length
    · simp [isTupleOfRest, h, Nat.not_le.mpr h]
    · simp [isTupleOfRest, h, Nat.le_of_not_lt h, List.all_eq_true,
        and_assoc]
  · intro predTup predElse x hx
    cases x <;> simp_all [isTupleOfRest, isArray]

theorem isTupleOf_spec_witness :
    isTupleOf [isNumber, isString] (.arr [.num 0]) = false :=
  isTupleOf_spec.2.2.1 [isNumber, isString] [.num 0] (by decide)

/-- C6 counterexample: `isLiteralOneOf` is implemented with
`Array.prototype.includes`, which compares with SameValueZero, so
`isLiteralOneOf([NaN])(NaN)` is `true` even though no member of the list is
strictly identical (`===`) to `NaN`. -/
theorem isLiteralOneOf_nan_counterexample :
    isLiteralOneOf [Value.nan] Value.nan = true ∧
      ¬ ∃ v ∈ [Value.nan], strictEq Value.nan v = true := by
  decide

/-- C6 (amended): `isLiteralOf(v)(x)` is `true` iff `x` is strictly
identical (`===`) to `v`; `isLiteralOneOf(vs)(x)` is `true` iff `x` is
SameValueZero-equal to some member of `vs`, which coincides with strict
identity for every literal other than `NaN`. -/
theorem isLiteral_spec :
    (∀ (v x : Value), isLiteralOf v x = strictEq x v) ∧
    (∀ (vs : List Value) (x : Value),
      isLiteralOneOf vs x = true ↔ ∃ v ∈ vs, sameValueZero v x = true) ∧
    (∀ (v x : Value), v ≠ Value.nan → sameValueZero v x = strictEq x v) := by
  refine ⟨fun v x => rfl, ?_, ?_⟩
  · intro vs x
    simp [isLiteralOneOf, List.any_eq_true]
  · intro v x hv
    rw [show sameValueZero v x = strictEq v x from ?_, strictEq_symm]
    cases v with
    | nan => exact absurd rfl hv
    | vUndefined => cases x <;> rfl
    | vnull => cases x <;> rfl
    | num m => cases x <;> rfl
    | str s => cases x <;> rfl
    | bool b => cases x <;> rfl
    | arr xs => cases x <;> rfl
    | obj fs => cases x <;> rfl

theorem isLiteral_spec_witness :
    sameValueZero (Value.str "a") (Value.str "a") =
      strictEq (Value.str "a") (Value.str "a") :=
  isLiteral_spec.2.2 (Value.str "a") (Value.str "a") (by simp)

/-- C7: `isOneOf(preds)(x)` is `true` iff some predicate of `preds` accepts
`x`, `isAllOf(preds)(x)` is `true` iff every predicate of `preds` accepts
`x`, and reordering `preds` never changes either boolean result. -/
theorem isOneOf_isAllOf_spec :
    (∀ (preds : List Pred) (x : Value),
      isOneOf preds x = true ↔ ∃ pred ∈ preds, pred x = true) ∧
    (∀ (preds : List Pred) (x : Value),
      isAllOf preds x = true ↔ ∀ pred ∈ preds, pred x = true) ∧
    (∀ (preds preds2 : List Pred) (x : Value), preds.Perm preds2 →
      isOneOf preds x = isOneOf preds2 x ∧
        isAllOf preds x = isAllOf preds2 x) := by
  refine ⟨fun preds x => by simp [isOneOf, List.any_eq_true],
    fun preds x => by simp [isAllOf, List.all_eq_true], ?_⟩
  intro preds preds2 x hperm
  constructor
  · rw [Bool.eq_iff_iff]
    simp only [isOneOf, List.any_eq_true]
    exact ⟨fun ⟨p, hp, h⟩ => ⟨p, hperm.mem_iff.mp hp, h⟩,
      fun ⟨p, hp, h⟩ => ⟨p, hperm.mem_iff.mpr hp, h⟩⟩
  · rw [Bool.eq_iff_iff]
    simp only [isAllOf, List.all_eq_true]
    exact ⟨fun h p hp => h p (hperm.mem_iff.mpr hp),
      fun h p hp => h p (hperm.mem_iff.mp hp)⟩

theorem isOneOf_isAllOf_spec_witness :
    isOneOf [isString, isNumber] (Value.num 3) =
      isOneOf [isNumber, isString] (Value.num 3) :=
  (isOneOf_isAllOf_spec.2.2 [isString, isNumber] [isNumber, isString]
    (Value.num 3) (List.Perm.swap isNumber isString [])).1

/-! Totality of each fallible combinator, one helper lemma per combinator. -/

theorem totalF_arrayOf (pred : FPred) (h : TotalF pred) :
    TotalF (fIsArrayOf pred) := by
  intro x
  cases x <;> simp only [fIsArrayOf] <;> try rfl
  exact allOpt_isSome _ _ fun a _ => h a

theorem totalF_tupleOf (predTup : List FPred) (h : ∀ p ∈ predTup, TotalF p) :
    TotalF (fIsTupleOf predTup) := by
  intro x
  cases x <;> simp only [fIsTupleOf] <;> try rfl
  case arr xs =>
    by_cases hl : xs.length = predTup.length
    · rw [if_pos hl]
      refine allOpt_isSome _ _ fun pv hpv => ?_
      obtain ⟨p, v⟩ := pv
      exact h p (List.of_mem_zip hpv).1 v
    · rw [if_neg hl]; rfl

theorem totalF_tupleOfRest (predTup : List FPred) (predElse : FPred)
    (h : ∀ p ∈ predTup, TotalF p) (he : TotalF predElse) :
    TotalF (fIsTupleOfRest predTup predElse) := by
  intro x
  cases x <;> simp only [fIsTupleOfRest] <;> try rfl
  case arr xs =>
    by_cases hl : xs.length < predTup.length
    · rw [if_pos hl]; rfl
    · rw [if_neg hl]
      have hh : (allOpt (predTup.zip (xs.take predTup.length))
          fun pv => pv.1 pv.2).isSome = true := by
        refine allOpt_isSome _ _ fun pv hpv => ?_
        obtain ⟨p, v⟩ := pv
        exact h p (List.of_mem_zip hpv).1 v
      obtain ⟨b, hb⟩ := Option.isSome_iff_exists.mp hh
      rw [hb, Option.some_bind]
      cases b with
      | false => rfl
      | true => exact he _

theorem totalF_uniformTupleOf (n : Nat) (pred : FPred) (h : TotalF pred) :
    TotalF (fIsUniformTupleOf n pred) :=
  totalF_tupleOf (List.replicate n pred) fun p hp => by
    rw [List.eq_of_mem_replicate hp]; exact h

theorem totalF_recordOf (pred : FPred) (h : TotalF pred) :
    TotalF (fIsRecordOf pred) := by
  intro x
  cases x <;> simp only [fIsRecordOf] <;> try rfl
  exact allOpt_isSome _ _ fun kv _ => h kv.2

theorem totalF_objectOfLoose (predObj : List (String × FPred))
    (h : ∀ kp ∈ predObj, TotalF kp.2) :
    TotalF (fIsObjectOfLoose predObj) := by
  intro x
  cases x <;> simp only [fIsObjectOfLoose] <;> try rfl
  exact allOpt_isSome _ _ fun kp hkp => h kp hkp _

theorem totalF_objectOfStrict (predObj : List (String × FPred))
    (h : ∀ kp ∈ predObj, TotalF kp.2) :
    TotalF (fIsObjectOfStrict predObj) := by
  intro x
  obtain ⟨b, hb⟩ :=
    Option.isSome_iff_exists.mp (totalF_objectOfLoose predObj h x)
  simp only [fIsObjectOfStrict, hb, Option.some_bind]
  cases b with
  | false => rfl
  | true => cases x <;> rfl

theorem totalF_oneOf (preds : List FPred) (h : ∀ p ∈ preds, TotalF p) :
    TotalF (fIsOneOf preds) := fun x =>
  anyOpt_isSome _ _ fun p hp => h p hp x

theorem totalF_allOf (preds : List FPred) (h : ∀ p ∈ preds, TotalF p) :
    TotalF (fIsAllOf preds) := fun x =>
  allOpt_isSome _ _ fun p hp => h p hp x

theorem totalF_literalOf (literal : Value) : TotalF (fIsLiteralOf literal) :=
  fun _ => rfl

theorem totalF_literalOneOf (literals : List Value) :
    TotalF (fIsLiteralOneOf literals) := fun _ => rfl

theorem totalF_optionalOf (pred : FPred) (h : TotalF pred) :
    TotalF (fIsOptionalOf pred) := by
  intro x
  by_cases hx : isUndefined x = true
  · simp [fIsOptionalOf, hx]
  · simpa [fIsOptionalOf, hx] using h x

/-- C8: value checking never raises.  For every combinator of the library,
if the sub-predicates it was built from return a boolean on every input
(never raise), then the constructed predicate returns a boolean on every
input — including on malformed, non-conforming values, where it returns
`false` rather than throwing. -/
theorem combinators_never_raise :
    (∀ pred, TotalF pred → TotalF (fIsArrayOf pred)) ∧
    (∀ predTup, (∀ p ∈ predTup, TotalF p) → TotalF (fIsTupleOf predTup)) ∧
    (∀ predTup predElse, (∀ p ∈ predTup, TotalF p) → TotalF predElse →
      TotalF (fIsTupleOfRest predTup predElse)) ∧
    (∀ (n : Nat) pred, TotalF pred → TotalF (fIsUniformTupleOf n pred)) ∧
    (∀ pred, TotalF pred → TotalF (fIsRecordOf pred)) ∧
    (∀ predObj, (∀ kp ∈ predObj, TotalF kp.2) →
      TotalF (fIsObjectOfLoose predObj)) ∧
    (∀ predObj, (∀ kp ∈ predObj, TotalF kp.2) →
      TotalF (fIsObjectOfStrict predObj)) ∧
    (∀ preds, (∀ p ∈ preds, TotalF p) → TotalF (fIsOneOf preds)) ∧
    (∀ preds, (∀ p ∈ preds, TotalF p) → TotalF (fIsAllOf preds)) ∧
    (∀ literal, TotalF (fIsLiteralOf literal)) ∧
    (∀ literals, TotalF (fIsLiteralOneOf literals)) ∧
    (∀ pred, TotalF pred → TotalF (fIsOptionalOf pred)) :=
  ⟨totalF_arrayOf, totalF_tupleOf, totalF_tupleOfRest, totalF_uniformTupleOf,
    totalF_recordOf, totalF_objectOfLoose, totalF_objectOfStrict,
    totalF_oneOf, totalF_allOf, totalF_literalOf, totalF_literalOneOf,
    totalF_optionalOf⟩

theorem combinators_never_raise_witness :
    TotalF (fIsArrayOf fun v => some (isString v)) :=
  combinators_never_raise.1 (fun v => some (isString v)) fun _ => rfl

end Unknownutil
